import Mathlib

/-!
Verification of the e-commerce REST API server (user accounts with JWT
authentication, product catalog with stock operations).

The development shallowly embeds the controller and model logic:

* `src/unnamed/part_000` (auth controller): `register`, `login`,
  `refreshTokenHandler`, modelled over an explicit store state `AuthState`.
* `src/unnamed/part_001` (User model): `findByRefreshToken`, password
  matching, the refresh-token slot on the account document.
* `src/controllers/userController.js`: `updateUser`, `deleteUser`,
  `toggleUserStatus`, pagination of `getAllUsers`.
* `src/controllers/productController.js`: `updateStock`, pagination of
  `getAllProducts`.
* `src/models/Product.js`: the `comparePrice` validator and the
  pre-save hook that normalises the primary-image flags.

JSON web tokens are modelled as structured values `RToken` carrying the
signed payload (`id`) and the issuance instant (`iat`); the process-wide
issuance counter in `AuthState` stands for the clock, so successive
issuances yield distinct tokens.  bcrypt comparison is modelled as
equality with the stored credential.  Handlers return
`Except AppErr result`: an `.error` reply is produced before any store
mutation, exactly as the controllers `return next(createError(...))`
before touching the database.
-/

namespace ECommerce

/-- A signed refresh token: payload `{ id }` plus the issuance instant
(`iat`), which `jwt.sign` embeds and which makes successive tokens
distinct. -/
structure RToken where
  id : Nat
  iat : Nat
deriving DecidableEq, Repr

/-- An account document (User model, `src/unnamed/part_001`).
`password` holds the stored (hashed) credential and `refreshToken` is the
single nullable refresh-token slot. -/
structure User where
  id : Nat
  name : String
  email : String
  password : String
  role : String
  phone : Option String
  address : Option String
  avatar : Option String
  isActive : Bool
  lastLogin : Option Nat
  refreshToken : Option RToken
deriving DecidableEq, Repr

/-- An operational application error, as built by `createError(message,
statusCode)` in `src/utils/errorHandler.js`. -/
structure AppErr where
  message : String
  statusCode : Nat
deriving DecidableEq, Repr

def createError (message : String) (statusCode : Nat) : AppErr :=
  ⟨message, statusCode⟩

/-- The store of account documents together with the token-issuance
clock. -/
structure AuthState where
  users : List User
  tokenCtr : Nat
deriving DecidableEq, Repr

/-- The store operation `User.findById`. -/
def findById (users : List User) (uid : Nat) : Option User :=
  users.find? (fun u => u.id == uid)

/-- The store operation `User.findOne` keyed by email. -/
def findByEmail (users : List User) (email : String) : Option User :=
  users.find? (fun u => u.email == email)

/-- The store operations `findByIdAndUpdate` / `user.save()`: replace the document with the
given id. -/
def updateById (users : List User) (uid : Nat) (f : User → User) : List User :=
  users.map (fun u => if u.id == uid then f u else u)

/-- Refresh-token issuance, `jwt.sign` with payload `{ id }` at issuance
instant `ctr`. -/
def generateRefreshToken (uid : Nat) (ctr : Nat) : RToken :=
  ⟨uid, ctr⟩

/-- Password comparison `bcrypt.compare(entered, stored)` (User model `matchPassword`),
modelled as equality with the stored credential. -/
def matchPassword (entered stored : String) : Bool :=
  entered == stored

/-- The static `userSchema.statics.findByRefreshToken` (`src/unnamed/part_001`,
lines 113–120): verify the token and load the account by the embedded
id. -/
def findByRefreshToken (users : List User) (t : RToken) : Option User :=
  findById users t.id

/-- The `refreshToken` handler (`src/unnamed/part_000`, lines 130–160). -/
def refreshTokenHandler (s : AuthState) (body : Option RToken) :
    Except AppErr (RToken × AuthState) :=
  match body with
  | none => .error (createError "Refresh token is required" 400)
  | some token =>
    match findByRefreshToken s.users token with
    | none => .error (createError "Invalid refresh token" 401)
    | some user =>
      if user.refreshToken ≠ some token then
        .error (createError "Invalid refresh token" 401)
      else if !user.isActive then
        .error (createError "User account is deactivated" 401)
      else
        let newTok := generateRefreshToken user.id s.tokenCtr
        .ok (newTok,
          ⟨updateById s.users user.id (fun u => { u with refreshToken := some newTok }),
           s.tokenCtr + 1⟩)

/-- The body of a registration request (after validation). -/
structure RegisterReq where
  name : String
  email : String
  password : String
  phone : Option String
  address : Option String
  role : Option String
deriving DecidableEq, Repr

/-- The `register` handler (`src/unnamed/part_000`, lines 11–71).  `env` is
`process.env.NODE_ENV`, `newId` the id the store gives the created
document, `now` the clock reading stored into `lastLogin`.  The stored
credential is the bcrypt image of the request password, modelled by the
password itself (see `matchPassword`). -/
def register (env : String) (s : AuthState) (req : RegisterReq) (newId now : Nat) :
    Except AppErr (User × RToken × AuthState) :=
  match findByEmail s.users req.email with
  | some _ => .error (createError "User with this email already exists" 409)
  | none =>
    let userRole :=
      if req.role == some "admin" then
        if env == "development" then "admin"
        else
          match s.users.find? (fun u => u.role == "admin") with
          | some _ => "user"
          | none => "admin"
      else "user"
    let tok := generateRefreshToken newId s.tokenCtr
    let user : User :=
      { id := newId, name := req.name, email := req.email, password := req.password,
        role := userRole, phone := req.phone, address := req.address, avatar := none,
        isActive := true, lastLogin := some now, refreshToken := some tok }
    .ok (user, tok, ⟨s.users ++ [user], s.tokenCtr + 1⟩)

/-- The `login` handler (`src/unnamed/part_000`, lines 78–123). -/
def login (s : AuthState) (email password : String) (now : Nat) :
    Except AppErr (User × RToken × AuthState) :=
  match findByEmail s.users email with
  | none => .error (createError "Invalid email or password" 401)
  | some user =>
    if !user.isActive then
      .error (createError "Your account has been deactivated. Please contact support." 401)
    else if !(matchPassword password user.password) then
      .error (createError "Invalid email or password" 401)
    else
      let tok := generateRefreshToken user.id s.tokenCtr
      let user' := { user with refreshToken := some tok, lastLogin := some now }
      .ok (user', tok, ⟨updateById s.users user.id (fun _ => user'), s.tokenCtr + 1⟩)

/-- Concrete account used by the witnesses: holds refresh token `⟨1, 0⟩`. -/
def wUser : User :=
  ⟨1, "Ada", "ada@example.com", "Pw1aaa", "user", none, none, none, true, none,
    some ⟨1, 0⟩⟩

/-- Store with `wUser` and issuance clock 1. -/
def wState : AuthState := ⟨[wUser], 1⟩

/-- State `wState` after a first refresh: token rotated to `⟨1, 1⟩`. -/
def wState1 : AuthState := ⟨[{ wUser with refreshToken := some ⟨1, 1⟩ }], 2⟩

/-- State `wState1` after a second refresh: token rotated to `⟨1, 2⟩`. -/
def wState2 : AuthState := ⟨[{ wUser with refreshToken := some ⟨1, 2⟩ }], 3⟩

/-- Registration request asking for the administrator role. -/
def cexReq : RegisterReq :=
  ⟨"Eve", "eve@example.com", "Pw1eee", none, none, some "admin"⟩

def cexTok : RToken := ⟨1, 0⟩

/-- The account `register "production" ⟨[], 0⟩ cexReq 1 0` creates. -/
def cexUser : User :=
  ⟨1, "Eve", "eve@example.com", "Pw1eee", "admin", none, none, none, true,
    some 0, some ⟨1, 0⟩⟩

def cexState : AuthState := ⟨[cexUser], 1⟩

/-- An entry of a product's image list (`src/models/Product.js`,
lines 68–81). -/
structure PImage where
  url : String
  alt : String
  isPrimary : Bool
deriving DecidableEq, Repr

/-- A product document (`src/models/Product.js`).  Prices are rationals
(JS numbers on the validated paths), stock is an integer. -/
structure Product where
  id : Nat
  name : String
  description : String
  price : ℚ
  comparePrice : Option ℚ
  category : String
  brand : String
  sku : String
  stock : Int
  images : List PImage
  isActive : Bool
  isFeatured : Bool
  createdBy : Nat
  updatedBy : Option Nat
deriving DecidableEq, Repr

/-- The store operation `Product.findById`. -/
def findProductById (ps : List Product) (pid : Nat) : Option Product :=
  ps.find? (fun p => p.id == pid)

/-- The store operations `product.save()` / `findByIdAndUpdate` on the product store. -/
def updateProductById (ps : List Product) (pid : Nat) (f : Product → Product) :
    List Product :=
  ps.map (fun p => if p.id == pid then f p else p)

/-- The `updateStock` handler (`src/controllers/productController.js`,
lines 256–304).  `stockIn` is `req.body.stock` (`none` models a value that
is not a number), `opIn` is `req.body.operation` (defaulted to `set` when
absent).  On success it returns the updated store and the new stock. -/
def updateStock (ps : List Product) (pid actingId : Nat) (stockIn : Option Int)
    (opIn : Option String) : Except AppErr (List Product × Int) :=
  let operation := opIn.getD "set"
  match stockIn with
  | none => .error (createError "Stock must be a positive number" 400)
  | some stock =>
    if stock < 0 then
      .error (createError "Stock must be a positive number" 400)
    else if !(["set", "add", "subtract"].contains operation) then
      .error (createError "Operation must be one of: set, add, subtract" 400)
    else
      match findProductById ps pid with
      | none => .error (createError "Product not found" 404)
      | some product =>
        let newStock : Int :=
          if operation == "set" then stock
          else if operation == "add" then product.stock + stock
          else max 0 (product.stock - stock)
        .ok (updateProductById ps pid
              (fun p => { p with stock := newStock, updatedBy := some actingId }),
            newStock)

/-- The pagination object shaped by `getAllProducts`
(`src/controllers/productController.js`, lines 53–79) and `getAllUsers`
(`src/controllers/userController.js`, lines 37–59). -/
structure Pagination where
  currentPage : Nat
  totalPages : Int
  totalCount : Nat
  hasNextPage : Bool
  hasPrevPage : Bool
deriving DecidableEq, Repr

/-- Pagination math: `totalPages = Math.ceil(totalCount / limit)`,
`hasNextPage = page < totalPages`, `hasPrevPage = page > 1`, exactly as
in the two listing handlers. -/
def buildPagination (totalCount page limit : Nat) : Pagination :=
  let totalPages : Int := Int.ceil ((totalCount : ℚ) / (limit : ℚ))
  { currentPage := page
    totalPages := totalPages
    totalCount := totalCount
    hasNextPage := decide ((page : Int) < totalPages)
    hasPrevPage := decide (1 < page) }

/-- The predicate `img => img.isPrimary` used by the pre-save hook and the
`primaryImage` virtual. -/
def isPrim : PImage → Bool := fun img => img.isPrimary

/-- One iteration of the `forEach` in the pre-save hook
(`src/models/Product.js`, lines 223–225): mutate
`img.isPrimary = (index === this.images.findIndex(i => i.isPrimary))`,
where `findIndex` runs on the array as already mutated by the previous
iterations.  (JS `findIndex` yields `-1` when no element matches and the
comparison with a valid index is then false; `List.findIdx` yields the
length, with the same effect.) -/
def fixupIter (arr : List PImage) (i : Nat) : List PImage :=
  match arr[i]? with
  | none => arr
  | some img =>
    arr.set i { img with isPrimary := decide (i = arr.findIdx isPrim) }

/-- The whole `forEach`: iterate `fixupIter` over the indices 0,…,n−1. -/
def fixupAll (arr : List PImage) : List PImage :=
  (List.range arr.length).foldl fixupIter arr

/-- The fold stopped after the first `m` indices (proof device for
`fixupAll`). -/
def fixupUpTo (arr : List PImage) (m : Nat) : List PImage :=
  (List.range m).foldl fixupIter arr

/-- The pre-save hook of the Product model (`src/models/Product.js`,
lines 214–229). -/
def productPreSaveHook (p : Product) : Product :=
  if p.images.length > 0 then
    let primaryImages := p.images.filter isPrim
    if primaryImages.length == 0 then
      { p with images :=
          match p.images with
          | [] => []
          | img :: rest => { img with isPrimary := true } :: rest }
    else if primaryImages.length > 1 then
      { p with images := fixupAll p.images }
    else p
  else p

/-- Image list with two images marked primary, exercising the forEach
normalisation. -/
def wImages : List PImage :=
  [⟨"a.png", "", true⟩, ⟨"b.png", "", true⟩, ⟨"c.png", "", false⟩]

/-- Concrete product with stock 3 used by the witnesses. -/
def wProduct : Product :=
  ⟨7, "Mouse", "A pointing device", 25, none, "electronics", "Acme", "SKU1",
    3, [], true, false, 1, none⟩

/-- The schema validation relevant to prices and stock
(`src/models/Product.js`, lines 15–29 and 62–67): `price` has `min 0`;
`comparePrice` has `min 0` and the custom validator
`value => !value || value >= this.price` (mongoose skips the validators
entirely when the optional value is absent); `stock` has `min 0`.
JS `!value` is true for the number 0, so a zero compare-at price passes
the custom validator. -/
def validateProduct (p : Product) : Bool :=
  decide (0 ≤ p.price) &&
  (match p.comparePrice with
   | none => true
   | some v => decide (0 ≤ v) && ((v == 0) || decide (p.price ≤ v))) &&
  decide (0 ≤ p.stock)

/-- The body of a profile-update request; `none` marks an absent field
(JS `undefined`). -/
structure UpdateUserBody where
  name : Option String
  phone : Option String
  address : Option String
  avatar : Option String
  role : Option String
  isActive : Option Bool
deriving DecidableEq, Repr

/-- Handler `updateUser` (`src/controllers/userController.js`, lines 106–161):
name, phone, address and avatar are copied from the body when present;
role and isActive are copied only when the caller is an administrator. -/
def updateUser (s : AuthState) (acting : User) (targetId : Nat)
    (body : UpdateUserBody) : Except AppErr (User × AuthState) :=
  match findById s.users targetId with
  | none => .error (createError "User not found" 404)
  | some user =>
    if acting.id ≠ user.id ∧ acting.role ≠ "admin" then
      .error (createError "Access denied. You can only update your own profile." 403)
    else
      let u1 : User :=
        { user with
          name := (match body.name with | some v => v | none => user.name),
          phone :=
            (match body.phone with | some v => some v | none => user.phone),
          address :=
            (match body.address with | some v => some v | none => user.address),
          avatar :=
            (match body.avatar with | some v => some v | none => user.avatar) }
      let u2 : User :=
        if acting.role == "admin" then
          { u1 with
            role := (match body.role with | some v => v | none => u1.role),
            isActive :=
              (match body.isActive with | some v => v | none => u1.isActive) }
        else u1
      .ok (u2, ⟨updateById s.users targetId (fun _ => u2), s.tokenCtr⟩)

/-- Handler `deleteUser` (`src/controllers/userController.js`, lines 168–195):
soft delete, clearing the refresh token; blocked for an administrator
targeting their own account. -/
def deleteUser (s : AuthState) (acting : User) (targetId : Nat) :
    Except AppErr AuthState :=
  match findById s.users targetId with
  | none => .error (createError "User not found" 404)
  | some user =>
    if acting.id ≠ user.id ∧ acting.role ≠ "admin" then
      .error (createError "Access denied. You can only delete your own account." 403)
    else if acting.role = "admin" ∧ acting.id = user.id then
      .error (createError "Admin cannot delete their own account" 400)
    else
      .ok ⟨updateById s.users targetId
            (fun u => { u with isActive := false, refreshToken := none }),
          s.tokenCtr⟩

/-- Handler `toggleUserStatus` (`src/controllers/userController.js`,
lines 202–239).  `isActive` is `none` when `req.body.isActive` is not a
boolean; the refresh token is cleared when deactivating. -/
def toggleUserStatus (s : AuthState) (acting : User) (targetId : Nat)
    (isActive : Option Bool) : Except AppErr AuthState :=
  match isActive with
  | none => .error (createError "isActive field must be a boolean value" 400)
  | some active =>
    match findById s.users targetId with
    | none => .error (createError "User not found" 404)
    | some user =>
      if acting.id = user.id then
        .error (createError "Admin cannot change their own account status" 400)
      else
        .ok ⟨updateById s.users user.id
              (fun u =>
                { u with
                  isActive := active,
                  refreshToken := (if active then u.refreshToken else none) }),
            s.tokenCtr⟩

/-- An administrator account distinct from `wUser`. -/
def wAdmin : User :=
  ⟨2, "Root", "root@example.com", "Pw1rrr", "admin", none, none, none, true,
    none, none⟩

/-- Store holding `wUser` and `wAdmin`. -/
def wStateTwo : AuthState := ⟨[wUser, wAdmin], 1⟩

/-- State `wStateTwo` after deactivating (or soft-deleting) `wUser`. -/
def wStateDeact : AuthState :=
  ⟨[{ wUser with isActive := false, refreshToken := none }, wAdmin], 1⟩

theorem findById_updateById (users : List User) (uid : Nat) (f : User → User)
    (hf : ∀ u, (f u).id = u.id) :
    findById (updateById users uid f) uid = (findById users uid).map f := by
  induction users with
  | nil => rfl
  | cons u rest ih =>
    simp only [findById, updateById, List.map_cons, List.find?_cons] at *
    by_cases h : u.id == uid
    · simp [h, hf u]
    · simp only [h, if_neg, Bool.false_eq_true, if_false]
      simpa [h] using ih

theorem findById_id (users : List User) (uid : Nat) (u : User)
    (h : findById users uid = some u) : u.id = uid := by
  have := List.find?_some h
  exact eq_of_beq this

/-- Characterisation of a successful refresh: the account was found by the
token's id, held exactly the supplied token, was active; the new token is
minted at the current issuance instant and overwrites the stored slot. -/
theorem refresh_ok_spec (s : AuthState) (t newTok : RToken) (s' : AuthState)
    (h : refreshTokenHandler s (some t) = .ok (newTok, s')) :
    ∃ u, findById s.users t.id = some u ∧ u.refreshToken = some t ∧
      u.isActive = true ∧ newTok = ⟨u.id, s.tokenCtr⟩ ∧
      s'.users = updateById s.users u.id
        (fun v => { v with refreshToken := some newTok }) ∧
      s'.tokenCtr = s.tokenCtr + 1 := by
  simp only [refreshTokenHandler, findByRefreshToken] at h
  cases hf : findById s.users t.id with
  | none => simp only [hf] at h; exact absurd h (by simp)
  | some u =>
    simp only [hf] at h
    refine ⟨u, rfl, ?_⟩
    split at h
    · exact absurd h (by simp)
    · next hrt =>
      push_neg at hrt
      split at h
      · exact absurd h (by simp)
      · next hact =>
        simp only [Except.ok.injEq, Prod.mk.injEq] at h
        obtain ⟨hn, hs⟩ := h
        refine ⟨hrt, by simpa using hact, hn.symm, ?_, ?_⟩
        · rw [← hs, ← hn]
        · rw [← hs]

/-- C1: a successful refresh overwrites the stored refresh token with the
newly issued one, so refreshing twice in sequence invalidates the first
token: a third refresh call supplying the overwritten first token fails
with Unauthorized(401) because it no longer matches the stored value. -/
theorem refresh_rotation_invalidates_old_token
    (s s1 s2 : AuthState) (t0 t1 t2 : RToken)
    (h1 : refreshTokenHandler s (some t0) = .ok (t1, s1))
    (h2 : refreshTokenHandler s1 (some t1) = .ok (t2, s2)) :
    (∃ u, findById s2.users t1.id = some u ∧ u.refreshToken = some t2) ∧
    refreshTokenHandler s2 (some t1) =
      .error (createError "Invalid refresh token" 401) := by
  obtain ⟨u0, hf0, _, _, ht1, _, hc1⟩ := refresh_ok_spec s t0 t1 s1 h1
  obtain ⟨u1, hf1, hrt1, _, ht2, hs2, _⟩ := refresh_ok_spec s1 t1 t2 s2 h2
  have hid1 : u1.id = t1.id := findById_id _ _ _ hf1
  have hf1x : findById s1.users u1.id = some u1 := by rw [hid1]; exact hf1
  have hfind2 : findById s2.users t1.id =
      some { u1 with refreshToken := some t2 } := by
    rw [hs2, show t1.id = u1.id from hid1.symm,
      findById_updateById s1.users u1.id
        (fun v => { v with refreshToken := some t2 }) (fun u => rfl),
      hf1x, Option.map_some']
  have hne : t2 ≠ t1 := by
    intro hEq
    have : t2.iat = t1.iat := by rw [hEq]
    rw [ht2, ht1] at this
    simp only [hc1] at this
    omega
  refine ⟨⟨_, hfind2, rfl⟩, ?_⟩
  simp only [refreshTokenHandler, findByRefreshToken, hfind2]
  simp [hne]

/-- C1 witness: the rotation property evaluated on a one-account store. -/
theorem refresh_rotation_invalidates_old_token_witness :
    (∃ u, findById wState2.users (1 : Nat) = some u ∧
        u.refreshToken = some ⟨1, 2⟩) ∧
    refreshTokenHandler wState2 (some ⟨1, 1⟩) =
      .error (createError "Invalid refresh token" 401) :=
  refresh_rotation_invalidates_old_token wState wState1 wState2
    ⟨1, 0⟩ ⟨1, 1⟩ ⟨1, 2⟩ (by rfl) (by rfl)

/-- C2 counterexample: the code elevates a registration that requests the
administrator role even in the production environment (when no
administrator exists), so elevation is not restricted to non-production
environments.  The claim as stated is therefore false. -/
theorem register_admin_rule_counterexample :
    ¬ (∀ (env : String) (s : AuthState) (req : RegisterReq) (newId now : Nat)
        (user : User) (tok : RToken) (s' : AuthState),
        register env s req newId now = .ok (user, tok, s') →
        user.role = "admin" →
        env ≠ "production" ∧
          s.users.find? (fun u => u.role == "admin") = none) := by
  intro hclaim
  have h := hclaim "production" ⟨[], 0⟩ cexReq 1 0 cexUser cexTok cexState
    (by rfl) (by decide)
  exact h.1 rfl

/-- C2 amended: the created account's role is administrator exactly when
the request asks for it and either the environment is `development` or no
administrator account exists yet; in every other case the role is the
standard one. -/
theorem register_role_elevation (env : String) (s : AuthState)
    (req : RegisterReq) (newId now : Nat) (user : User) (tok : RToken)
    (s' : AuthState)
    (h : register env s req newId now = .ok (user, tok, s')) :
    user.role = if req.role = some "admin" ∧
        (env = "development" ∨
          s.users.find? (fun u => u.role == "admin") = none)
      then "admin" else "user" := by
  simp only [register] at h
  cases hf : findByEmail s.users req.email with
  | some u => simp only [hf] at h; exact absurd h (by simp)
  | none =>
    simp only [hf] at h
    simp only [Except.ok.injEq, Prod.mk.injEq] at h
    obtain ⟨hu, -, -⟩ := h
    subst hu
    by_cases hreq : req.role = some "admin"
    · by_cases henv : env = "development"
      · simp [hreq, henv]
      · cases hadm : s.users.find? (fun u => u.role == "admin") with
        | some a =>
          simp [hreq, henv, hadm, beq_iff_eq]
        | none =>
          simp [hreq, henv, hadm, beq_iff_eq]
    · simp [hreq, beq_iff_eq]

/-- C2 witness for the amended statement, at the production bootstrap
input. -/
theorem register_role_elevation_witness :
    cexUser.role = if cexReq.role = some "admin" ∧
        ("production" = "development" ∨
          (AuthState.mk [] 0).users.find? (fun u => u.role == "admin") = none)
      then "admin" else "user" :=
  register_role_elevation "production" ⟨[], 0⟩ cexReq 1 0 cexUser cexTok
    cexState (by rfl)

/-- C3: a login with an unknown email and a login against an existing
active account with a wrong password both fail with status 401 and one
identical message. -/
theorem login_enumeration_resistance (s : AuthState) (e1 pw1 e2 pw2 : String)
    (u : User) (now1 now2 : Nat)
    (h1 : findByEmail s.users e1 = none)
    (h2 : findByEmail s.users e2 = some u)
    (hact : u.isActive = true)
    (hpw : matchPassword pw2 u.password = false) :
    ∃ m : String, login s e1 pw1 now1 = .error (createError m 401) ∧
      login s e2 pw2 now2 = .error (createError m 401) := by
  refine ⟨"Invalid email or password", ?_, ?_⟩
  · simp [login, h1]
  · simp [login, h2, hact, hpw]

/-- C3 witness: unknown email vs wrong password on `wUser`. -/
theorem login_enumeration_resistance_witness :
    ∃ m : String,
      login wState "nobody@example.com" "Pw1aaa" 5 =
        .error (createError m 401) ∧
      login wState "ada@example.com" "WRONGpw9" 6 =
        .error (createError m 401) :=
  login_enumeration_resistance wState "nobody@example.com" "Pw1aaa"
    "ada@example.com" "WRONGpw9" wUser 5 6
    (by decide) (by decide) (by decide) (by decide)

/-- C4: a stock update with a non-numeric or negative stock, or an
operation outside {set, add, subtract}, fails with BadRequest(400) before
any store mutation; a valid call sets the stock to the amount for `set`,
adds it for `add`, and floors at zero for `subtract`. -/
theorem updateStock_spec (ps : List Product) (pid actingId : Nat) (p : Product)
    (hfind : findProductById ps pid = some p) :
    (∀ opIn, updateStock ps pid actingId none opIn =
      .error (createError "Stock must be a positive number" 400)) ∧
    (∀ (n : Int) (opIn), n < 0 → updateStock ps pid actingId (some n) opIn =
      .error (createError "Stock must be a positive number" 400)) ∧
    (∀ (n : Int) (op : String), 0 ≤ n → op ∉ ["set", "add", "subtract"] →
      updateStock ps pid actingId (some n) (some op) =
        .error (createError "Operation must be one of: set, add, subtract" 400)) ∧
    (∀ n : Int, 0 ≤ n → updateStock ps pid actingId (some n) (some "set") =
      .ok (updateProductById ps pid
        (fun q => { q with stock := n, updatedBy := some actingId }), n)) ∧
    (∀ n : Int, 0 ≤ n → updateStock ps pid actingId (some n) (some "add") =
      .ok (updateProductById ps pid
        (fun q => { q with stock := p.stock + n, updatedBy := some actingId }),
        p.stock + n)) ∧
    (∀ n : Int, 0 ≤ n → updateStock ps pid actingId (some n) (some "subtract") =
      .ok (updateProductById ps pid
        (fun q => { q with stock := max 0 (p.stock - n),
                           updatedBy := some actingId }),
        max 0 (p.stock - n))) := by
  refine ⟨fun opIn => by simp [updateStock], ?_, ?_, ?_, ?_, ?_⟩
  · intro n opIn hn
    simp [updateStock, hn]
  · intro n op hn hop
    simp only [List.mem_cons, List.not_mem_nil, or_false, not_or] at hop
    obtain ⟨h1, h2, h3⟩ := hop
    simp [updateStock, not_lt.mpr hn, h1, h2, h3]
  · intro n hn
    simp [updateStock, not_lt.mpr hn, hfind]
  · intro n hn
    simp [updateStock, not_lt.mpr hn, hfind]
  · intro n hn
    simp [updateStock, not_lt.mpr hn, hfind]

/-- C4 witness, covering the spec example `subtract(stock=3, amount=10)`
ending at stock 0. -/
theorem updateStock_spec_witness :
    updateStock [wProduct] 7 1 none (some "set") =
      .error (createError "Stock must be a positive number" 400) ∧
    updateStock [wProduct] 7 1 (some (-1)) (some "set") =
      .error (createError "Stock must be a positive number" 400) ∧
    updateStock [wProduct] 7 1 (some 5) (some "noop") =
      .error (createError "Operation must be one of: set, add, subtract" 400) ∧
    updateStock [wProduct] 7 1 (some 10) (some "subtract") =
      .ok (updateProductById [wProduct] 7
        (fun q => { q with stock := max 0 (wProduct.stock - 10),
                           updatedBy := some 1 }),
        max 0 (wProduct.stock - 10)) ∧
    (max 0 (wProduct.stock - 10) : Int) = 0 :=
  have h := updateStock_spec [wProduct] 7 1 wProduct (by rfl)
  ⟨h.1 (some "set"), h.2.1 (-1) (some "set") (by decide),
   h.2.2.1 5 "noop" (by decide) (by decide),
   h.2.2.2.2.2 10 (by decide), by decide⟩

/-- The real-valued ceiling the handlers compute agrees with the natural
ceiling division `(t + l - 1) / l`. -/
theorem ceil_div_eq_add_pred_div (t l : Nat) (hl : 0 < l) :
    Int.ceil ((t : ℚ) / (l : ℚ)) = ((t + l - 1) / l : Nat) := by
  have hl' : (0 : ℚ) < l := by exact_mod_cast hl
  have hceil : (t + l - 1) / l = t ⌈/⌉ l := (Nat.ceilDiv_eq_add_pred_div t l).symm
  rw [Int.ceil_eq_iff]
  constructor
  · rcases Nat.eq_zero_or_pos ((t + l - 1) / l) with h0 | hpos
    · rw [h0]
      have hnn : (0 : ℚ) ≤ (t : ℚ) / l := by positivity
      push_cast
      linarith
    · obtain ⟨m, hm⟩ : ∃ m, (t + l - 1) / l = m + 1 :=
        ⟨(t + l - 1) / l - 1, (Nat.succ_pred_eq_of_pos hpos).symm⟩
      have hml : l * m < t := by
        by_contra hle
        push_neg at hle
        have hdiv : t ⌈/⌉ l ≤ m :=
          (ceilDiv_le_iff_le_smul hl).2 (by simpa [smul_eq_mul] using hle)
        rw [← hceil] at hdiv
        omega
      rw [hm, sub_lt_iff_lt_add, div_add' _ _ _ (ne_of_gt hl'),
        lt_div_iff hl']
      push_cast
      have hmlq : (l : ℚ) * m < t := by exact_mod_cast hml
      nlinarith [hmlq]
  · rw [div_le_iff hl']
    have h2 : t ≤ l * (t ⌈/⌉ l) := by
      simpa [smul_eq_mul] using le_smul_ceilDiv hl
    rw [← hceil] at h2
    have h3 : t ≤ ((t + l - 1) / l) * l := by
      rw [hceil, Nat.mul_comm]; exact h2
    exact_mod_cast h3

/-- C5: the pagination object satisfies
`totalPages = ceil(totalCount / limit)` (equal to the natural ceiling
division), `hasNextPage = page < totalPages`, `hasPrevPage = page > 1`,
including at the boundaries `page = 1`, `page = totalPages` and
`totalCount = 0`. -/
theorem pagination_spec (totalCount page limit : Nat) (hl : 0 < limit) :
    (buildPagination totalCount page limit).totalPages =
      Int.ceil ((totalCount : ℚ) / (limit : ℚ)) ∧
    ((buildPagination totalCount page limit).hasNextPage = true ↔
      (page : Int) < (buildPagination totalCount page limit).totalPages) ∧
    ((buildPagination totalCount page limit).hasPrevPage = true ↔ 1 < page) ∧
    (buildPagination totalCount page limit).totalPages =
      ((totalCount + limit - 1) / limit : Nat) ∧
    (totalCount = 0 →
      (buildPagination totalCount page limit).totalPages = 0 ∧
      (buildPagination totalCount page limit).hasNextPage = false) ∧
    (page = 1 → (buildPagination totalCount page limit).hasPrevPage = false) ∧
    ((page : Int) = (buildPagination totalCount page limit).totalPages →
      (buildPagination totalCount page limit).hasNextPage = false) := by
  refine ⟨rfl, by simp [buildPagination], by simp [buildPagination],
    ceil_div_eq_add_pred_div totalCount limit hl, ?_, ?_, ?_⟩
  · intro h0
    subst h0
    exact ⟨by simp [buildPagination], by simp [buildPagination]⟩
  · intro h1
    subst h1
    simp [buildPagination]
  · intro hEq
    simp only [buildPagination, decide_eq_false_iff_not, not_lt]
    simp only [buildPagination] at hEq
    omega

/-- C5 witness: pagination at `totalCount = 25`, `page = 3`, `limit = 12`
(so `totalPages = 3`, boundary `page = totalPages`). -/
theorem pagination_spec_witness :
    (buildPagination 25 3 12).totalPages =
      Int.ceil ((25 : ℚ) / (12 : ℚ)) ∧
    ((buildPagination 25 3 12).hasNextPage = true ↔
      (3 : Int) < (buildPagination 25 3 12).totalPages) ∧
    ((buildPagination 25 3 12).hasPrevPage = true ↔ 1 < 3) ∧
    (buildPagination 25 3 12).totalPages = ((25 + 12 - 1) / 12 : Nat) ∧
    ((25 : Nat) = 0 →
      (buildPagination 25 3 12).totalPages = 0 ∧
      (buildPagination 25 3 12).hasNextPage = false) ∧
    ((3 : Nat) = 1 → (buildPagination 25 3 12).hasPrevPage = false) ∧
    ((3 : Int) = (buildPagination 25 3 12).totalPages →
      (buildPagination 25 3 12).hasNextPage = false) :=
  pagination_spec 25 3 12 (by decide)

theorem fixupIter_length (arr : List PImage) (i : Nat) :
    (fixupIter arr i).length = arr.length := by
  unfold fixupIter
  cases h : arr[i]? <;> simp

theorem fixupIter_getElem_ne (arr : List PImage) (i j : Nat) (hij : i ≠ j) :
    (fixupIter arr i)[j]? = arr[j]? := by
  unfold fixupIter
  cases h : arr[i]? with
  | none => rfl
  | some img => simp [List.getElem?_set, hij]

theorem fixupIter_getElem_self (arr : List PImage) (i : Nat) (img : PImage)
    (h : arr[i]? = some img) :
    (fixupIter arr i)[i]? =
      some { img with isPrimary := decide (i = arr.findIdx isPrim) } := by
  have hi : i < arr.length := by
    by_contra hc
    push_neg at hc
    rw [List.getElem?_eq_none hc] at h
    cases h
  unfold fixupIter
  rw [h]
  simp [List.getElem?_set, hi]

theorem fixupUpTo_succ (arr : List PImage) (m : Nat) :
    fixupUpTo arr (m + 1) = fixupIter (fixupUpTo arr m) m := by
  unfold fixupUpTo
  rw [List.range_succ, List.foldl_append]
  rfl

theorem fixupAll_eq_fixupUpTo (arr : List PImage) :
    fixupAll arr = fixupUpTo arr arr.length := rfl

/-- Invariant of the `forEach` loop: after the first `m` iterations the
length is unchanged, every already-visited position `j` is primary exactly
when `j` is the original first-primary index, and the rest of the array is
untouched. -/
theorem fixupUpTo_inv (arr : List PImage)
    (hex : arr.findIdx isPrim < arr.length) (m : Nat) :
    (fixupUpTo arr m).length = arr.length ∧
    (∀ j, j < m → j < arr.length →
      ((fixupUpTo arr m)[j]?).map isPrim =
        some (decide (j = arr.findIdx isPrim))) ∧
    (∀ j, m ≤ j → (fixupUpTo arr m)[j]? = arr[j]?) := by
  induction m with
  | zero =>
    exact ⟨rfl, fun j hj _ => absurd hj (Nat.not_lt_zero j), fun j _ => rfl⟩
  | succ m ih =>
    obtain ⟨hlen, h2, h3⟩ := ih
    have hk : arr.findIdx isPrim < (fixupUpTo arr m).length := by
      rw [hlen]; exact hex
    have hfind : (fixupUpTo arr m).findIdx isPrim = arr.findIdx isPrim := by
      rw [List.findIdx_eq hk]
      constructor
      · by_cases hkm : arr.findIdx isPrim < m
        · have hv := h2 (arr.findIdx isPrim) hkm hex
          rw [List.getElem?_eq_getElem hk] at hv
          simpa using hv
        · push_neg at hkm
          have he := h3 (arr.findIdx isPrim) hkm
          rw [List.getElem?_eq_getElem hk, List.getElem?_eq_getElem hex] at he
          have heq : (fixupUpTo arr m)[arr.findIdx isPrim] =
              arr[arr.findIdx isPrim] := by simpa using he
          rw [heq]
          exact List.findIdx_getElem
      · intro j hjk
        have hjarr : j < arr.length := lt_trans hjk hex
        have hjlen : j < (fixupUpTo arr m).length := by rw [hlen]; exact hjarr
        by_cases hjm : j < m
        · have hv := h2 j hjm hjarr
          rw [List.getElem?_eq_getElem hjlen] at hv
          have hv2 : isPrim ((fixupUpTo arr m)[j]) = decide (j = arr.findIdx isPrim) := by
            simpa using hv
          rw [hv2]
          simp
          omega
        · push_neg at hjm
          have he := h3 j hjm
          rw [List.getElem?_eq_getElem hjlen, List.getElem?_eq_getElem hjarr] at he
          have heq : (fixupUpTo arr m)[j] = arr[j] := by simpa using he
          rw [heq]
          exact List.not_of_lt_findIdx hjk
    refine ⟨?_, ?_, ?_⟩
    · rw [fixupUpTo_succ, fixupIter_length, hlen]
    · intro j hj hjarr
      rw [fixupUpTo_succ]
      by_cases hjm : j = m
      · subst hjm
        have haj : (fixupUpTo arr j)[j]? = some (arr[j]) := by
          rw [h3 j (le_refl j)]
          exact List.getElem?_eq_getElem hjarr
        rw [fixupIter_getElem_self (fixupUpTo arr j) j (arr[j]) haj, hfind]
        rfl
      · have hjm2 : j < m := by omega
        rw [fixupIter_getElem_ne (fixupUpTo arr m) m j (by omega)]
        exact h2 j hjm2 hjarr
    · intro j hj
      rw [fixupUpTo_succ, fixupIter_getElem_ne (fixupUpTo arr m) m j (by omega)]
      exact h3 j (by omega)

/-- A list whose position `j` is primary exactly when `j = k` (for a
valid `k`) has primary-count one. -/
theorem countP_isPrim_eq_one (l : List PImage) (k : Nat) (hk : k < l.length)
    (h : ∀ j, j < l.length → (l[j]?).map isPrim = some (decide (j = k))) :
    l.countP isPrim = 1 := by
  induction l generalizing k with
  | nil => simp at hk
  | cons x xs ih =>
    have hx := h 0 (by simp)
    simp only [List.getElem?_cons_zero, Option.map_some'] at hx
    have hx2 : isPrim x = decide (0 = k) := by simpa using hx
    cases k with
    | zero =>
      have hxs : xs.countP isPrim = 0 := by
        rw [List.countP_eq_zero]
        intro a ha
        obtain ⟨j, hj, hjv⟩ := List.mem_iff_getElem.mp ha
        have hh := h (j + 1) (by simpa using Nat.succ_lt_succ hj)
        simp only [List.getElem?_cons_succ] at hh
        rw [List.getElem?_eq_getElem hj] at hh
        have : isPrim (xs[j]) = decide (j + 1 = 0) := by simpa using hh
        rw [hjv] at this
        simp at this
        simp [this]
      simp [List.countP_cons, hxs, hx2]
    | succ k2 =>
      have hshift : ∀ j, j < xs.length →
          ((xs[j]?).map isPrim) = some (decide (j = k2)) := by
        intro j hj
        have hh := h (j + 1) (by simpa using Nat.succ_lt_succ hj)
        simp only [List.getElem?_cons_succ] at hh
        rw [hh]
        simp [Nat.succ_inj]
      have hxs := ih k2 (by simpa using Nat.lt_of_succ_lt_succ hk) hshift
      have hx3 : isPrim x = false := by
        rw [hx2]; simp
      simp [List.countP_cons, hxs, hx3]

/-- C6: after the Product pre-save hook runs on a non-empty image list,
at most one image is marked primary, regardless of how many input images
were marked primary; and if no input image was marked primary, the first
image is marked primary. -/
theorem primary_image_invariant (p : Product) (h : p.images ≠ []) :
    ((productPreSaveHook p).images.countP isPrim ≤ 1) ∧
    (p.images.countP isPrim = 0 →
      ∃ img rest, (productPreSaveHook p).images = img :: rest ∧
        img.isPrimary = true) := by
  obtain ⟨hd, tl, hcons⟩ : ∃ hd tl, p.images = hd :: tl := by
    cases hi : p.images with
    | nil => exact absurd hi h
    | cons a b => exact ⟨a, b, rfl⟩
  have hpos : p.images.length > 0 := by rw [hcons]; simp
  have hfl : (p.images.filter isPrim).length = p.images.countP isPrim :=
    (List.countP_eq_length_filter isPrim p.images).symm
  rcases Nat.lt_or_ge (p.images.countP isPrim) 2 with hlt | hge
  · rcases Nat.lt_or_ge (p.images.countP isPrim) 1 with hlt0 | hge1
    · -- no primary on input: first image is set primary
      have hc0 : p.images.countP isPrim = 0 := by omega
      have htl : tl.countP isPrim = 0 := by
        rw [hcons, List.countP_cons] at hc0
        omega
      simp only [productPreSaveHook, hpos, if_true, hfl, hc0]
      rw [hcons]
      constructor
      · simp [List.countP_cons, htl, isPrim]
      · intro _
        exact ⟨_, _, rfl, rfl⟩
    · -- exactly one primary on input: list unchanged
      have hc1 : p.images.countP isPrim = 1 := by omega
      simp only [productPreSaveHook, hpos, if_true, hfl, hc1]
      norm_num
      omega
  · -- several primaries: the forEach leaves exactly the first one
    have hexm : ∃ x ∈ p.images, isPrim x = true := by
      rw [← List.countP_pos]
      omega
    have hex : p.images.findIdx isPrim < p.images.length :=
      List.findIdx_lt_length_of_exists hexm
    obtain ⟨hlen, h2, -⟩ := fixupUpTo_inv p.images hex p.images.length
    have hone : (fixupAll p.images).countP isPrim = 1 := by
      rw [fixupAll_eq_fixupUpTo]
      refine countP_isPrim_eq_one _ (p.images.findIdx isPrim) ?_ ?_
      · rw [hlen]; exact hex
      · intro j hj
        rw [hlen] at hj
        exact h2 j hj hj
    have hne0 : ¬ ((p.images.countP isPrim == 0) = true) := by
      simp only [beq_iff_eq]
      omega
    have hgt1 : p.images.countP isPrim > 1 := by omega
    have himg : productPreSaveHook p = { p with images := fixupAll p.images } := by
      simp only [productPreSaveHook, hfl]
      rw [if_pos hpos, if_neg hne0, if_pos hgt1]
    rw [himg]
    constructor
    · simp [hone]
    · intro hc
      omega

/-- C6 witness: the invariant evaluated on a product whose input list has
two primary images. -/
theorem primary_image_invariant_witness :
    (((productPreSaveHook { wProduct with images := wImages }).images.countP
        isPrim) ≤ 1) ∧
    (({ wProduct with images := wImages } : Product).images.countP isPrim = 0 →
      ∃ img rest,
        (productPreSaveHook { wProduct with images := wImages }).images =
          img :: rest ∧ img.isPrimary = true) :=
  primary_image_invariant { wProduct with images := wImages } (by decide)

/-- C7 counterexample: a product with a present compare-at price of 0 and
a price of 5 passes validation, because the custom validator's guard
(`!value`) treats the number 0 as absent; so a present compare-at price
strictly below the selling price does not always fail validation, and the
claim as stated is false. -/
theorem comparePrice_claim_counterexample :
    ¬ (∀ (p : Product) (v : ℚ), p.comparePrice = some v → v < p.price →
        validateProduct p = false) := by
  intro hclaim
  have h := hclaim { wProduct with price := 5, comparePrice := some 0 } 0
    rfl (by norm_num)
  have hv : validateProduct { wProduct with price := 5, comparePrice := some 0 }
      = true := by decide
  rw [hv] at h
  cases h

/-- C7 amended: the compare-price validator enforces
`price ≤ comparePrice` exactly for a present nonzero compare-at price: a
validated product with `comparePrice = some v`, `v ≠ 0`, satisfies
`price ≤ v`, and a nonzero `v < price` fails validation.  A compare-at
price equal to 0 is exempt (treated as absent by the JS falsy test). -/
theorem comparePrice_validator_spec (p : Product) (v : ℚ)
    (hcp : p.comparePrice = some v) (hv : v ≠ 0) :
    (validateProduct p = true → p.price ≤ v) ∧
    (v < p.price → validateProduct p = false) := by
  constructor
  · intro hval
    simp only [validateProduct, hcp, Bool.and_eq_true, decide_eq_true_eq,
      Bool.or_eq_true, beq_iff_eq] at hval
    rcases hval with ⟨⟨-, -, hor⟩, -⟩
    rcases hor with h0 | hle
    · exact absurd h0 hv
    · exact hle
  · intro hlt
    have h1 : (v == 0) = false := by simp [hv]
    have h2 : decide (p.price ≤ v) = false := by simp [not_le.mpr hlt]
    simp [validateProduct, hcp, h1, h2]

/-- C7 witness for the amended statement, with compare-at price 7 against
price 5. -/
theorem comparePrice_validator_spec_witness :
    (validateProduct { wProduct with price := 5, comparePrice := some 7 } =
        true →
      ({ wProduct with price := 5, comparePrice := some 7 } : Product).price
        ≤ 7) ∧
    ((7 : ℚ) <
        ({ wProduct with price := 5, comparePrice := some 7 } : Product).price →
      validateProduct { wProduct with price := 5, comparePrice := some 7 } =
        false) :=
  comparePrice_validator_spec { wProduct with price := 5, comparePrice := some 7 }
    7 rfl (by norm_num)

/-- C8: deactivating an account — the admin status toggle to inactive,
and the soft delete — clears its stored refresh token, and afterwards
every refresh attempt with any token for that account fails with 401. -/
theorem deactivation_clears_refresh_token (s : AuthState) (acting : User)
    (targetId : Nat) (s1 s2 : AuthState)
    (h1 : toggleUserStatus s acting targetId (some false) = .ok s1)
    (h2 : deleteUser s acting targetId = .ok s2) :
    (∃ u, findById s1.users targetId = some u ∧ u.refreshToken = none ∧
      u.isActive = false) ∧
    (∀ t : RToken, t.id = targetId →
      refreshTokenHandler s1 (some t) =
        .error (createError "Invalid refresh token" 401)) ∧
    (∃ u, findById s2.users targetId = some u ∧ u.refreshToken = none ∧
      u.isActive = false) ∧
    (∀ t : RToken, t.id = targetId →
      refreshTokenHandler s2 (some t) =
        .error (createError "Invalid refresh token" 401)) := by
  simp only [toggleUserStatus] at h1
  simp only [deleteUser] at h2
  cases hf : findById s.users targetId with
  | none =>
    rw [hf] at h1
    exact absurd h1 (by simp)
  | some user =>
    rw [hf] at h1
    rw [hf] at h2
    simp only [] at h1 h2
    have hid : user.id = targetId := findById_id _ _ _ hf
    have hfx : findById s.users user.id = some user := by rw [hid]; exact hf
    split at h1
    · exact absurd h1 (by simp)
    · simp only [Except.ok.injEq] at h1
      split at h2
      · exact absurd h2 (by simp)
      · split at h2
        · exact absurd h2 (by simp)
        · simp only [Except.ok.injEq] at h2
          have hfind1 : findById s1.users targetId =
              some { user with isActive := false, refreshToken := none } := by
            rw [← h1]
            show findById (updateById s.users user.id _) targetId = _
            rw [← hid, findById_updateById s.users user.id
              (fun u =>
                { u with
                  isActive := false,
                  refreshToken := (if false then u.refreshToken else none) })
              (fun u => rfl), hfx]
            rfl
          have hfind2 : findById s2.users targetId =
              some { user with isActive := false, refreshToken := none } := by
            rw [← h2]
            show findById (updateById s.users targetId _) targetId = _
            rw [← hid, findById_updateById s.users user.id
              (fun u => { u with isActive := false, refreshToken := none })
              (fun u => rfl), hfx]
            rfl
          refine ⟨⟨_, hfind1, rfl, rfl⟩, ?_, ⟨_, hfind2, rfl, rfl⟩, ?_⟩
          · intro t ht
            simp only [refreshTokenHandler, findByRefreshToken, ht, hfind1]
            simp
          · intro t ht
            simp only [refreshTokenHandler, findByRefreshToken, ht, hfind2]
            simp

/-- C8 witness: the admin deactivates and soft-deletes `wUser`; both leave
the account without a refresh token and refresh with the old token ⟨1,0⟩
fails. -/
theorem deactivation_clears_refresh_token_witness :
    (∃ u, findById wStateDeact.users 1 = some u ∧ u.refreshToken = none ∧
      u.isActive = false) ∧
    (∀ t : RToken, t.id = 1 →
      refreshTokenHandler wStateDeact (some t) =
        .error (createError "Invalid refresh token" 401)) ∧
    (∃ u, findById wStateDeact.users 1 = some u ∧ u.refreshToken = none ∧
      u.isActive = false) ∧
    (∀ t : RToken, t.id = 1 →
      refreshTokenHandler wStateDeact (some t) =
        .error (createError "Invalid refresh token" 401)) :=
  deactivation_clears_refresh_token wStateTwo wAdmin 1 wStateDeact wStateDeact
    (by rfl) (by rfl)

/-- C9: an administrator targeting their own account is rejected before
any store mutation: the self delete fails with 400 and the self status
toggle fails with 400 (both in the 400/403 range the spec allows). -/
theorem admin_self_actions_blocked (s : AuthState) (acting : User)
    (hadm : acting.role = "admin")
    (hfind : findById s.users acting.id = some acting) :
    deleteUser s acting acting.id =
      .error (createError "Admin cannot delete their own account" 400) ∧
    (∀ b : Bool, toggleUserStatus s acting acting.id (some b) =
      .error (createError "Admin cannot change their own account status" 400)) := by
  constructor
  · simp [deleteUser, hfind, hadm]
  · intro b
    simp [toggleUserStatus, hfind]

/-- C9 witness: `wAdmin` targeting itself in `wStateTwo`. -/
theorem admin_self_actions_blocked_witness :
    deleteUser wStateTwo wAdmin wAdmin.id =
      .error (createError "Admin cannot delete their own account" 400) ∧
    (∀ b : Bool, toggleUserStatus wStateTwo wAdmin wAdmin.id (some b) =
      .error
        (createError "Admin cannot change their own account status" 400)) :=
  admin_self_actions_blocked wStateTwo wAdmin (by rfl) (by rfl)

/-- C10: a profile update by a non-administrator caller (on the account
the access check lets through, i.e. their own) succeeds, silently ignores
any role or isActive values present in the payload, and can modify only
the name, phone, address and avatar fields. -/
theorem updateUser_nonadmin_frame (s : AuthState) (acting user : User)
    (body : UpdateUserBody)
    (hrole : acting.role ≠ "admin")
    (hfind : findById s.users acting.id = some user) :
    ∃ u2 s2, updateUser s acting acting.id body = .ok (u2, s2) ∧
      u2.role = user.role ∧ u2.isActive = user.isActive ∧
      u2.id = user.id ∧ u2.email = user.email ∧
      u2.password = user.password ∧ u2.refreshToken = user.refreshToken ∧
      u2.lastLogin = user.lastLogin ∧
      u2.name = (match body.name with | some v => v | none => user.name) ∧
      u2.phone =
        (match body.phone with | some v => some v | none => user.phone) ∧
      u2.address =
        (match body.address with | some v => some v | none => user.address) ∧
      u2.avatar =
        (match body.avatar with | some v => some v | none => user.avatar) ∧
      s2.users = updateById s.users acting.id (fun _ => u2) := by
  have hid : user.id = acting.id := findById_id _ _ _ hfind
  have hcond : ¬(acting.id ≠ user.id ∧ acting.role ≠ "admin") := by
    rw [hid]
    simp
  have hbeq : (acting.role == "admin") = false := by
    simp [hrole]
  simp only [updateUser, hfind]
  rw [if_neg hcond]
  simp only [hbeq, Bool.false_eq_true, if_false]
  exact ⟨_, _, rfl, rfl, rfl, rfl, rfl, rfl, rfl, rfl, rfl, rfl, rfl, rfl, rfl⟩

/-- C10 witness: `wUser` updates its own profile with a payload that also
tries to set role and isActive; both are ignored. -/
theorem updateUser_nonadmin_frame_witness :
    ∃ u2 s2, updateUser wState wUser wUser.id
        ⟨some "Eve", none, none, some "pic.png", some "admin", some false⟩ =
        .ok (u2, s2) ∧
      u2.role = wUser.role ∧ u2.isActive = wUser.isActive ∧
      u2.id = wUser.id ∧ u2.email = wUser.email ∧
      u2.password = wUser.password ∧ u2.refreshToken = wUser.refreshToken ∧
      u2.lastLogin = wUser.lastLogin ∧
      u2.name = (match (some "Eve" : Option String) with
        | some v => v | none => wUser.name) ∧
      u2.phone = (match (none : Option String) with
        | some v => some v | none => wUser.phone) ∧
      u2.address = (match (none : Option String) with
        | some v => some v | none => wUser.address) ∧
      u2.avatar = (match (some "pic.png" : Option String) with
        | some v => some v | none => wUser.avatar) ∧
      s2.users = updateById wState.users wUser.id (fun _ => u2) :=
  updateUser_nonadmin_frame wState wUser wUser
    ⟨some "Eve", none, none, some "pic.png", some "admin", some false⟩
    (by decide) (by rfl)

end ECommerce
